import Mathlib

/-!
Verification development for the voice-agent-framework repository.

The definitions below are a shallow embedding of the Python sources:
`src/framework/core/context.py`, `src/framework/core/orchestrator.py`,
`src/framework/core/observer.py`, `src/client/agents/router.py` and
`src/infrastructure/database/repository.py`.  Wall-clock timestamps are
modelled as abstract `Nat` clock values passed explicitly to the operations
that stamp them; I/O effects (filler audio, logging, metrics) are either
modelled as event traces or omitted when no claim mentions them.
-/

set_option maxHeartbeats 1000000

/-! ### Python-style string helpers -/

/-- Python `needle in hay` substring test on character lists. -/
def charSeqContains (hay needle : List Char) : Bool :=
  needle.isPrefixOf hay ||
    (match hay with
     | [] => false
     | _ :: t => charSeqContains t needle)

/-- Python `needle in hay` substring test on strings. -/
def strContains (hay needle : String) : Bool :=
  charSeqContains hay.data needle.data

/-- Python `str.lower()` (ASCII case folding, which covers every string the
claims mention). -/
def pyLower (s : String) : String :=
  ⟨s.data.map Char.toLower⟩

/-- Python truthiness of an optional string (`None` and `""` are falsy). -/
def truthyOpt : Option String → Bool
  | some s => s != ""
  | none => false

/-- Python `s[:n]` character slice. -/
def pyTake (n : Nat) (s : String) : String :=
  ⟨s.data.take n⟩

/-! ### HandoffData (`src/framework/core/context.py`, class `HandoffData`)

The Python model also carries a `timestamp` field (defaulted to the wall
clock and never read by any operation the claims mention); it is omitted
here.  `scratchpad_snapshot` values are modelled as strings. -/

structure HandoffData where
  source_agent : String
  target_agent : String
  last_user_turn : Option String := none
  user_intent : Option String := none
  user_name : Option String := none
  greeting_completed : Bool := false
  scratchpad_snapshot : List (String × String) := []
  reason : Option String := none
deriving DecidableEq

/-- One optional line of the injection block: Python appends
`tag + value` exactly when the field is truthy. -/
def optPart (tag : String) (o : Option String) : List String :=
  match o with
  | some s => if s = "" then [] else [tag ++ s]
  | none => []

/-- The quoted last-user-message line. -/
def lastTurnPart (o : Option String) : List String :=
  match o with
  | some s => if s = "" then [] else ["Last User Message: \"" ++ s ++ "\""]
  | none => []

/-- The fixed re-greeting note. -/
def greetNote : String :=
  "Note: Greeting already completed. Do NOT re-greet the user."

/-- The `parts` list built by `HandoffData.to_context_injection`. -/
def HandoffData.parts (h : HandoffData) : List String :=
  optPart "User Name: " h.user_name ++
    optPart "Previous Intent: " h.user_intent ++
    lastTurnPart h.last_user_turn ++
    (if h.greeting_completed then [greetNote] else []) ++
    optPart "Handoff Reason: " h.reason

/-- `HandoffData.to_context_injection` from `context.py`. -/
def HandoffData.toContextInjection (h : HandoffData) : String :=
  let parts := h.parts
  if parts.isEmpty then ""
  else "[HANDOFF CONTEXT]\n" ++ String.intercalate "\n" parts ++ "\n[END CONTEXT]"

/-! ### Signals and responses (`src/framework/core/signals.py`)

Only the fields the claims mention are kept; audio payload bytes are
modelled as `List Nat`.  An `AudioSignal`'s free-form metadata is reduced to
its optional `"transcription"` entry, the only key any analysed code reads. -/

inductive Signal where
  | text (session_id : String) (content : String)
  | audio (session_id : String) (transcription : Option String)
  | system (session_id : String) (event_type : String)
deriving DecidableEq

def Signal.sessionId : Signal → String
  | .text sid _ => sid
  | .audio sid _ => sid
  | .system sid _ => sid

structure PyToolCall where
  tool_name : String
  arguments : List (String × String)
  call_id : String := ""
deriving DecidableEq

/-- Python `dict.get(k)` on a tool-call argument map. -/
def argGet (args : List (String × String)) (k : String) : Option String :=
  (args.find? (·.1 == k)).map (·.2)

/-- Python `dict.get(k, d)`. -/
def argGetD (args : List (String × String)) (k d : String) : String :=
  (argGet args k).getD d

structure RoutingDecision where
  thought_process : String
  route_to : String
  handover_context : Option String := none
  priority : Int := 0
deriving DecidableEq

inductive RespType where
  | audio | text | toolCall | routing | error
deriving DecidableEq

structure Response where
  response_type : RespType
  session_id : String
  agent_name : String
  audio_data : Option (List Nat) := none
  text_content : Option String := none
  tool_calls : List PyToolCall := []
  routing_decision : Option RoutingDecision := none
  requires_tool_execution : Bool := false
  is_final : Bool := true
deriving DecidableEq

/-- `Response.routing_response` constructor from `signals.py`. -/
def Response.routingResponse (sid agent : String) (d : RoutingDecision) : Response :=
  { response_type := .routing, session_id := sid, agent_name := agent,
    routing_decision := some d, is_final := false }

/-! ### Router agent (`src/client/agents/router.py`)

The LLM is an oracle: `none` models `generate` raising an exception, `some r`
a result carrying tool calls and optional text. -/

structure LLMResult where
  tool_calls : List PyToolCall := []
  text : Option String := none
deriving DecidableEq

def VALID_TARGETS : List String := ["identity", "task_manager", "router"]

/-- `RouterAgent._extract_text`. -/
def extractText : Signal → Option String
  | .text _ c => some c
  | .audio _ tr => tr
  | .system _ _ => none

def taskKeywords : List String :=
  ["task", "todo", "remind", "schedule", "add", "create",
   "list", "show", "what\x27s on", "what do i have", "meeting",
   "appointment", "deadline", "priority", "due", "mark",
   "complete", "done", "finish", "delete", "remove"]

def authKeywords : List String := ["who am i", "my name", "identify"]

/-- `RouterAgent._quick_route` (text already lowercased by the caller). -/
def quickRoute (text : String) (authenticated : Bool) : Option RoutingDecision :=
  match taskKeywords.find? (fun kw => strContains text kw) with
  | some kw =>
      some { thought_process := "Detected task intent: \x27" ++ kw ++ "\x27",
             route_to := "task_manager", handover_context := some text }
  | none =>
    match authKeywords.find? (fun kw => strContains text kw) with
    | some kw =>
        some { thought_process := "User asking about identity: \x27" ++ kw ++ "\x27",
               route_to := "identity" }
    | none =>
      if authenticated then
        some { thought_process := "Authenticated user, defaulting to task manager",
               route_to := "task_manager", handover_context := some text }
      else none

/-- `RouterAgent._parse_text_routing`. -/
def parseTextRouting (text : String) (session_id : String) : Response :=
  let tl := pyLower text
  let target := if strContains tl "identity" || strContains tl "auth" then "identity"
                else "task_manager"
  Response.routingResponse session_id "router"
    { thought_process := "Parsed from text: " ++ pyTake 100 text, route_to := target }

def routerFallback (session_id : String) : Response :=
  Response.routingResponse session_id "router"
    { thought_process := "Fallback routing", route_to := "task_manager" }

/-- The `text_content` value computed inside `_llm_route`
(`self._extract_text(signal) or "[audio input]"`). -/
def llmTextContent (sig : Signal) : String :=
  match extractText sig with
  | some t => if t = "" then "[audio input]" else t
  | none => "[audio input]"

/-- `RouterAgent._llm_route`: the first `transfer_agent` tool call wins,
then free text is parsed, then the default fallback applies (also on a
`generate` exception, modelled by `outcome = none`). -/
def llmRoute (outcome : Option LLMResult) (sig : Signal) : Response :=
  let sid := sig.sessionId
  let textContent := llmTextContent sig
  match outcome with
  | some r =>
    match r.tool_calls.find? (·.tool_name == "transfer_agent") with
    | some tc =>
        let target0 := argGetD tc.arguments "target_agent_name" "task_manager"
        let reason := argGetD tc.arguments "reason" ""
        let target := if target0 ∈ VALID_TARGETS then target0 else "task_manager"
        Response.routingResponse sid "router"
          { thought_process := reason, route_to := target,
            handover_context := some textContent }
    | none =>
      match r.text with
      | some t => if t = "" then routerFallback sid else parseTextRouting t sid
      | none => routerFallback sid
  | none => routerFallback sid

/-- `RouterAgent.process_signal`. -/
def routerProcessSignal (outcome : Option LLMResult) (sig : Signal)
    (authenticated : Bool) : Response :=
  if !authenticated then
    Response.routingResponse sig.sessionId "router"
      { thought_process := "User is not authenticated", route_to := "identity",
        handover_context := some "New session, authentication required" }
  else
    match extractText sig with
    | some t =>
      if t ≠ "" then
        match quickRoute (pyLower t) authenticated with
        | some d => Response.routingResponse sig.sessionId "router" d
        | none => llmRoute outcome sig
      else llmRoute outcome sig
    | none => llmRoute outcome sig

/-! ### Session and global context (`src/framework/core/context.py`) -/

structure Turn where
  role : String
  content : String
  agent_name : Option String := none
deriving DecidableEq

structure Session where
  session_id : String := ""
  last_activity : Nat := 0
  active_agent : String := "router"
  previous_agent : Option String := none
  conversation_history : List Turn := []
  scratchpad : List (String × String) := []
  handoff_data : Option HandoffData := none
  greeting_completed : Bool := false
deriving DecidableEq

/-- `SessionContext.add_turn` (the clock value `now` stamps `last_activity`). -/
def Session.addTurn (s : Session) (role content : String) (agent : Option String)
    (now : Nat) : Session :=
  { s with conversation_history := s.conversation_history ++ [⟨role, content, agent⟩],
           last_activity := now }

/-- `SessionContext.get_last_user_turn`. -/
def Session.getLastUserTurn (s : Session) : Option String :=
  (s.conversation_history.reverse.find? (·.role == "user")).map (·.content)

/-- `SessionContext.switch_agent`. -/
def Session.switchAgent (s : Session) (newAgent : String) (now : Nat) : Session :=
  { s with previous_agent := some s.active_agent, active_agent := newAgent,
           last_activity := now }

/-- `SessionContext.prepare_handoff`: builds the handoff envelope, stores it in
the `handoff_data` slot and returns it. -/
def Session.prepareHandoff (s : Session) (target : String)
    (reason user_intent : Option String) : HandoffData × Session :=
  let h : HandoffData :=
    { source_agent := s.active_agent, target_agent := target,
      last_user_turn := s.getLastUserTurn, user_intent := user_intent,
      user_name := none, greeting_completed := s.greeting_completed,
      scratchpad_snapshot := s.scratchpad, reason := reason }
  (h, { s with handoff_data := some h })

/-- `SessionContext.consume_handoff`. -/
def Session.consumeHandoff (s : Session) : Option HandoffData × Session :=
  (s.handoff_data, { s with handoff_data := none })

/-- `SessionContext.mark_greeting_completed`. -/
def Session.markGreetingCompleted (s : Session) : Session :=
  { s with greeting_completed := true }

/-- Python dict assignment `scratchpad.data[k] = v`. -/
def Session.scratchSet (s : Session) (k v : String) : Session :=
  { s with scratchpad := s.scratchpad.filter (·.1 != k) ++ [(k, v)] }

structure UserCtx where
  user_id : String
  phone_number : String
  full_name : Option String := none
  is_authenticated : Bool := true
deriving DecidableEq

/-- `UserContext.anonymous`. -/
def UserCtx.anonymous : UserCtx :=
  { user_id := "anonymous", phone_number := "unknown", is_authenticated := false }

structure GlobalCtx where
  session : Session := {}
  user : UserCtx := .anonymous
  available_agents : List String := ["router", "task_manager", "identity"]
  current_time : Nat := 0
deriving DecidableEq

/-- `GlobalContext.is_authenticated`. -/
def GlobalCtx.isAuthenticated (c : GlobalCtx) : Bool :=
  c.user.is_authenticated

/-! ### Orchestrator (`src/framework/core/orchestrator.py`)

Registered agents are a name-keyed registry (`self._agents`); an agent value
keeps its name and system prompt.  Lifecycle hooks and handoff traffic are
recorded as an event trace: `onEnter a (some h)` is a consumption of the
prepared handoff by the next agent's `on_enter`. -/

structure Agent where
  name : String
  system_prompt : String := ""
deriving DecidableEq

structure Orch where
  context : GlobalCtx := {}
  agents : List Agent := []
  active_agent : Option String := none
deriving DecidableEq

structure RoutingErr where
  source_agent : String
  target_agent : String
  message : String
deriving DecidableEq

inductive Ev where
  | onExit (agent : String)
  | onEnter (agent : String) (handoff : Option HandoffData)
  | prepare (h : HandoffData)
  | consumeCall (h : Option HandoffData)
deriving DecidableEq

/-- `Orchestrator.get_agent`. -/
def Orch.getAgent (st : Orch) (n : String) : Option Agent :=
  st.agents.find? (·.name == n)

def Orch.registeredNames (st : Orch) : List String :=
  st.agents.map (·.name)

/-- `Orchestrator.register_agent`: `ValueError` when the name is taken,
otherwise insert and append to `available_agents` when absent. -/
def Orch.registerAgent (st : Orch) (a : Agent) : Except String Orch :=
  if (st.getAgent a.name).isSome then
    .error ("Agent \x27" ++ a.name ++ "\x27 is already registered")
  else
    .ok { st with
          agents := st.agents ++ [a],
          context := { st.context with
            available_agents :=
              if a.name ∈ st.context.available_agents then
                st.context.available_agents
              else st.context.available_agents ++ [a.name] } }

/-- `Orchestrator.set_active_agent`: an unknown name raises `RoutingException`
before any hook runs or any state changes; otherwise `on_exit` fires on the
outgoing agent, the session records the switch, and `on_enter` receives the
handoff. -/
def Orch.setActiveAgent (st : Orch) (name : String) (handoff : Option HandoffData)
    (now : Nat) : Option RoutingErr × Orch × List Ev :=
  if (st.getAgent name).isSome then
    let exitEvs := match st.active_agent with
      | some a => [Ev.onExit a]
      | none => []
    let s' := st.context.session.switchAgent name now
    (none,
     { st with context := { st.context with session := s' }, active_agent := some name },
     exitEvs ++ [Ev.onEnter name handoff])
  else
    (some { source_agent := st.context.session.active_agent, target_agent := name,
            message := "Agent \x27" ++ name ++ "\x27 not found" },
     st, [])

/-- The part of `Orchestrator._process_signal` that runs before
`active_agent.process_signal`: refresh the clock, append a user turn for
signals that carry a `content` attribute, then apply the authentication
gate. -/
def Orch.withTime (st : Orch) (now : Nat) : Orch :=
  { st with context := { st.context with current_time := now } }

def Orch.recordUserTurn (st : Orch) (sig : Signal) (now : Nat) : Orch :=
  match sig with
  | .text _ c =>
      { st with context := { st.context with
          session := st.context.session.addTurn "user" c none now } }
  | _ => st

/-- The handoff the authentication gate prepares. -/
def Orch.gateHandoff (st : Orch) : HandoffData :=
  (st.context.session.prepareHandoff "identity" (some "Authentication required") none).1

/-- The authentication-gate step of `_process_signal` (`a` is the current
active agent's name). -/
def Orch.authGate (st : Orch) (a : String) (now : Nat) :
    Except String (Orch × List Ev) :=
  if st.context.isAuthenticated then .ok (st, [])
  else if a = "identity" then .ok (st, [])
  else if "identity" ∈ st.registeredNames then
    let (h, s') := st.context.session.prepareHandoff "identity"
      (some "Authentication required") none
    let st2 := { st with context := { st.context with session := s' } }
    match st2.setActiveAgent "identity" (some h) now with
    | (some e, _, _) => .error e.message
    | (none, st3, evs) => .ok (st3, Ev.prepare h :: evs)
  else .ok (st, [])

def Orch.processSignalPre (st : Orch) (sig : Signal) (now : Nat) :
    Except String (Orch × List Ev) :=
  match st.active_agent with
  | none => .error "No active agent"
  | some a => ((st.withTime now).recordUserTurn sig now).authGate a now

/-- `Orchestrator._handle_transfer_agent`: read the target and reason from the
tool arguments, prepare a warm handoff (attaching the user name when
authenticated — in Python this mutates the very object stored in
`session.handoff_data`, modelled by updating both), then switch to the target,
falling back to `task_manager` for unknown targets. -/
def Orch.transferHandoff (st : Orch) (tc : PyToolCall) : HandoffData :=
  let target := argGetD tc.arguments "target_agent_name" "task_manager"
  let reason := argGetD tc.arguments "reason" ""
  let h0 := (st.context.session.prepareHandoff target (some reason)
    st.context.session.getLastUserTurn).1
  if st.context.isAuthenticated then { h0 with user_name := st.context.user.full_name }
  else h0

def Orch.transferTarget (st : Orch) (tc : PyToolCall) : String :=
  let target := argGetD tc.arguments "target_agent_name" "task_manager"
  if (st.getAgent target).isSome then target else "task_manager"

/-- The session state after `_handle_transfer_agent` has prepared the handoff
(in Python, setting `handoff.user_name` mutates the object already stored in
`session.handoff_data`; here both are updated). -/
def Orch.withTransferSession (st : Orch) (tc : PyToolCall) : Orch :=
  let target := argGetD tc.arguments "target_agent_name" "task_manager"
  let reason := argGetD tc.arguments "reason" ""
  let s' := (st.context.session.prepareHandoff target (some reason)
    st.context.session.getLastUserTurn).2
  let s'' := if st.context.isAuthenticated
    then { s' with handoff_data := some (st.transferHandoff tc) } else s'
  { st with context := { st.context with session := s'' } }

def Orch.handleTransferAgent (st : Orch) (tc : PyToolCall) (now : Nat) :
    Except RoutingErr (Orch × List Ev) :=
  match (st.withTransferSession tc).setActiveAgent (st.transferTarget tc)
      (some (st.transferHandoff tc)) now with
  | (some e, _, _) => .error e
  | (none, st2, evs) => .ok (st2, Ev.prepare (st.transferHandoff tc) :: evs)

def Orch.routingHandoff (st : Orch) (d : RoutingDecision) : HandoffData :=
  let h0 := (st.context.session.prepareHandoff d.route_to
    (some d.thought_process) d.handover_context).1
  if st.context.isAuthenticated then { h0 with user_name := st.context.user.full_name }
  else h0

def Orch.withRoutingSession (st : Orch) (d : RoutingDecision) : Orch :=
  let s' := (st.context.session.prepareHandoff d.route_to
    (some d.thought_process) d.handover_context).2
  let s'' := if st.context.isAuthenticated
    then { s' with handoff_data := some (st.routingHandoff d) } else s'
  { st with context := { st.context with session := s'' } }

/-- `Orchestrator._handle_routing_decision`: when the decision's target is
registered, prepare a handoff (attaching the user name when authenticated) and
switch; otherwise do nothing. -/
def Orch.handleRoutingDecision (st : Orch) (d : RoutingDecision) (now : Nat) :
    Orch × List Ev :=
  if (st.getAgent d.route_to).isSome then
    match (st.withRoutingSession d).setActiveAgent d.route_to
        (some (st.routingHandoff d)) now with
    | (some _, st2, evs) => (st2, Ev.prepare (st.routingHandoff d) :: evs)
    | (none, st2, evs) => (st2, Ev.prepare (st.routingHandoff d) :: evs)
  else (st, [])

/-- Python truthiness of optional audio bytes (`None` and `b""` are falsy). -/
def audioTruthy : Option (List Nat) → Bool
  | some l => !l.isEmpty
  | none => false

/-- The tail of `Orchestrator._handle_response` for user-directed output:
when the response carries text or audio, emit it, latch `greeting_completed`
after the first assistant response, and append an assistant turn. -/
def Orch.handleResponseEmit (st : Orch) (resp : Response) (now : Nat) : Orch :=
  if truthyOpt resp.text_content || audioTruthy resp.audio_data then
    let s := st.context.session
    let s := if !s.greeting_completed then s.markGreetingCompleted else s
    let content := match resp.text_content with
      | some t => if t = "" then "[audio response]" else t
      | none => "[audio response]"
    let s := s.addTurn "assistant" content (some resp.agent_name) now
    { st with context := { st.context with session := s } }
  else st

/-! ### Intervention observer (`src/framework/core/observer.py`) -/

def defaultHotwords : List String :=
  ["stop", "cancel", "operator", "help", "emergency", "nevermind", "never mind"]

structure HotwordConfig where
  hotwords : List String := defaultHotwords
  case_sensitive : Bool := false
deriving DecidableEq

/-- `HotwordConfig.matches`: the first configured hotword contained in the
text (case-insensitively unless `case_sensitive`). -/
def HotwordConfig.matches (cfg : HotwordConfig) (text : String) : Option String :=
  let checkText := if cfg.case_sensitive then text else pyLower text
  cfg.hotwords.find? fun w =>
    strContains checkText (if cfg.case_sensitive then w else pyLower w)

structure Intervention where
  message : String
  intervention_type : String
  target_agent : Option String := none
deriving DecidableEq

/-- `InterventionObserver._get_target_for_hotword`. -/
def getTargetForHotword (hotword : String) : Option String :=
  let hl := pyLower hotword
  if hl = "operator" ∨ hl = "help" ∨ hl = "emergency" then some "human_intervention"
  else if hl = "stop" ∨ hl = "cancel" ∨ hl = "nevermind" ∨ hl = "never mind" then
    some "router"
  else none

/-- `InterventionObserver._analyze_sentiment` (keyword counting; the score
`(pos - neg) / total` is a rational). -/
def negativeWords : List String :=
  ["angry", "frustrated", "terrible", "awful", "hate",
   "worst", "horrible", "disgusting", "furious", "upset"]

def positiveWords : List String :=
  ["great", "wonderful", "excellent", "amazing", "love",
   "best", "fantastic", "happy", "pleased", "thank"]

def analyzeSentiment (text : String) : ℚ :=
  let tl := pyLower text
  let negCount := (negativeWords.filter (fun w => strContains tl w)).length
  let posCount := (positiveWords.filter (fun w => strContains tl w)).length
  let total := negCount + posCount
  if total = 0 then 0 else ((posCount : ℚ) - (negCount : ℚ)) / (total : ℚ)

structure ObserverCfg where
  hotword_config : HotwordConfig := {}
  timeout_seconds : Nat := 30
  enable_sentiment : Bool := false
deriving DecidableEq

/-- The text `_analyze_signal` inspects: a `Text` signal's content or an
`Audio` signal's `"transcription"` metadata. -/
def observerText : Signal → Option String
  | .text _ c => some c
  | .audio _ tr => tr
  | .system _ _ => none

/-- `InterventionObserver._analyze_signal`: the `PriorityIntervention` raised
for a signal, if any. -/
def analyzeSignal (obs : ObserverCfg) (sig : Signal) : Option Intervention :=
  match observerText sig with
  | none => none
  | some t =>
    if t = "" then none
    else
      match obs.hotword_config.matches t with
      | some w =>
          some { message := "Hotword detected: " ++ w,
                 intervention_type := "HOTWORD",
                 target_agent := getTargetForHotword w }
      | none =>
        if obs.enable_sentiment && decide (analyzeSentiment t < -(7 / 10 : ℚ)) then
          some { message := "Negative sentiment detected",
                 intervention_type := "SENTIMENT",
                 target_agent := some "human_intervention" }
        else none

/-! ### Task repository (`src/infrastructure/database/repository.py`)

The database is a list of task rows plus a fresh-id counter standing in for
`uuid4()`; `wfTaskDB` states the freshness invariant uuid generation
guarantees.  `priority` is a Python `int`, modelled as `Int`. -/

structure TaskRow where
  task_id : Nat
  user_id : String
  description : String
  priority : Int
  due_date : Option Nat := none
  status : String
deriving DecidableEq

structure TaskDB where
  nextId : Nat := 0
  tasks : List TaskRow := []
deriving DecidableEq

def wfTaskDB (db : TaskDB) : Prop :=
  ∀ t ∈ db.tasks, t.task_id < db.nextId

/-- `TaskRepository.create`: clamp the priority to `[1, 5]` and insert an
`OPEN` task. -/
def TaskDB.create (db : TaskDB) (user_id description : String) (priority : Int)
    (due_date : Option Nat) : TaskRow × TaskDB :=
  let t : TaskRow :=
    { task_id := db.nextId, user_id := user_id, description := description,
      priority := max 1 (min 5 priority), due_date := due_date, status := "OPEN" }
  (t, { nextId := db.nextId + 1, tasks := db.tasks ++ [t] })

/-- `TaskRepository.get_by_id`. -/
def TaskDB.getById (db : TaskDB) (id : Nat) : Option TaskRow :=
  db.tasks.find? (·.task_id == id)

def validStatuses : List String := ["OPEN", "IN_PROGRESS", "COMPLETED", "CANCELLED"]

/-- `TaskRepository.update_status`: `ValueError` for a status outside the
domain, otherwise write the status on the matching row and re-read it. -/
def TaskDB.updateStatus (db : TaskDB) (id : Nat) (status : String) :
    Except String (Option TaskRow × TaskDB) :=
  if status ∉ validStatuses then .error ("Invalid status: " ++ status)
  else
    let db' : TaskDB :=
      { db with tasks := db.tasks.map fun t =>
          if t.task_id == id then { t with status := status } else t }
    .ok (db'.getById id, db')

/-- The keyword-argument map accepted by `TaskRepository.update`. -/
structure TaskFields where
  description : Option String := none
  priority : Option Int := none
  status : Option String := none
  due_date : Option (Option Nat) := none
deriving DecidableEq

def applyTaskFields (f : TaskFields) (t : TaskRow) : TaskRow :=
  { t with
    description := f.description.getD t.description,
    priority := (f.priority.map fun p => max 1 (min 5 p)).getD t.priority,
    status := f.status.getD t.status,
    due_date := f.due_date.getD t.due_date }

/-- `TaskRepository.update`: clamp a supplied priority, validate a supplied
status (`ValueError` outside the domain), then write the fields on the
matching row and re-read it. -/
def TaskDB.update (db : TaskDB) (id : Nat) (f : TaskFields) :
    Except String (Option TaskRow × TaskDB) :=
  match f.status with
  | some s =>
    if s ∉ validStatuses then .error ("Invalid status: " ++ s)
    else
      let db' : TaskDB :=
        { db with tasks := db.tasks.map fun t =>
            if t.task_id == id then applyTaskFields f t else t }
      .ok (db'.getById id, db')
  | none =>
    let db' : TaskDB :=
      { db with tasks := db.tasks.map fun t =>
          if t.task_id == id then applyTaskFields f t else t }
    .ok (db'.getById id, db')

/-! ### The session mutators, as a closed operation alphabet (for the
greeting-latch invariant).  These are exactly the `SessionContext` methods
that write session state, plus the orchestrator's only direct session write,
`mark_greeting_completed` (orchestrator `_handle_response` and the Twilio
handler both write the latch through that method). -/

inductive SessOp where
  | addTurn (role content : String) (agent : Option String) (now : Nat)
  | switchAgent (name : String) (now : Nat)
  | prepareHandoff (target : String) (reason intent : Option String)
  | consumeHandoff
  | markGreetingCompleted
  | scratchSet (k v : String)
deriving DecidableEq

def applySessOp (s : Session) : SessOp → Session
  | .addTurn role content agent now => s.addTurn role content agent now
  | .switchAgent name now => s.switchAgent name now
  | .prepareHandoff target reason intent => (s.prepareHandoff target reason intent).2
  | .consumeHandoff => (s.consumeHandoff).2
  | .markGreetingCompleted => s.markGreetingCompleted
  | .scratchSet k v => s.scratchSet k v

def SessOp.isMarkGreeting : SessOp → Bool
  | .markGreetingCompleted => true
  | _ => false

def routerLoopCall : PyToolCall :=
  { tool_name := "transfer_agent",
    arguments := [("target_agent_name", "router"), ("reason", "loop")] }

def identityCall : PyToolCall :=
  { tool_name := "transfer_agent", arguments := [("target_agent_name", "identity")] }

/-! ### Generic list lemmas used by several proofs -/

theorem find?_append_singleton {α : Type} (p : α → Bool) (l : List α) (x : α)
    (hl : ∀ y ∈ l, p y = false) (hx : p x = true) :
    (l ++ [x]).find? p = some x := by
  induction l with
  | nil => simp [List.find?, hx]
  | cons a t ih =>
    have ha : p a = false := hl a (by simp)
    simp only [List.cons_append, List.find?, ha]
    exact ih fun y hy => hl y (by simp [hy])

theorem string_mk_inj {a b : List Char} (h : a = b) : String.mk a = String.mk b :=
  congrArg String.mk h

theorem string_data_inj {s t : String} (h : s.data = t.data) : s = t := by
  cases s; cases t; exact congrArg String.mk h

/-- Two string appends with literal tags whose first characters differ are
never equal. -/
theorem tag_append_ne {c d : Char} {tl tl' : List Char} (hcd : c ≠ d)
    {p q s t : String} (hp : p.data = c :: tl) (hq : q.data = d :: tl') :
    p ++ s ≠ q ++ t := by
  intro h
  have h2 := congrArg String.data h
  rw [String.data_append, String.data_append, hp, hq] at h2
  exact hcd (List.head_eq_of_cons_eq h2)

/-- A string append with a literal tag never equals a literal whose first
character differs from the tag's. -/
theorem tag_append_ne_lit {c d : Char} {tl tl' : List Char} (hcd : c ≠ d)
    {p s q : String} (hp : p.data = c :: tl) (hq : q.data = d :: tl') :
    p ++ s ≠ q := by
  intro h
  have h2 := congrArg String.data h
  rw [String.data_append, hp, hq] at h2
  exact hcd (List.head_eq_of_cons_eq h2)

/-- Left-cancellation for string appends. -/
theorem string_append_left_cancel {p n m : String} (h : p ++ n = p ++ m) : n = m := by
  have h2 := congrArg String.data h
  rw [String.data_append, String.data_append] at h2
  exact string_data_inj (List.append_cancel_left h2)

/-- Cancellation for strings wrapped between two literals. -/
theorem string_append_both_cancel {p q n m : String}
    (h : p ++ n ++ q = p ++ m ++ q) : n = m := by
  have h2 := congrArg String.data h
  simp only [String.data_append, List.append_assoc] at h2
  exact string_data_inj (List.append_cancel_right (List.append_cancel_left h2))


theorem status_after_map_write (l : List TaskRow) (id : Nat) (g : TaskRow → TaskRow)
    (st : String) (hg : ∀ t, (g t).status = st) (t : TaskRow)
    (ht : (l.map fun x => if x.task_id == id then g x else x).find? (·.task_id == id)
            = some t) :
    t.status = st := by
  have hmem := List.mem_of_find?_eq_some ht
  have hpt := List.find?_some ht
  rw [List.mem_map] at hmem
  obtain ⟨x, hx, hfx⟩ := hmem
  by_cases hxid : (x.task_id == id) = true
  · rw [if_pos hxid] at hfx
    rw [← hfx]; exact hg x
  · rw [if_neg hxid] at hfx
    rw [← hfx] at hpt
    exact absurd hpt hxid

/-- C7: switching to an unregistered agent name raises a `RoutingException`
whose source is the session's current active agent and whose target is the
requested name, runs no `on_exit`/`on_enter` hook, and leaves the whole
orchestrator state (in particular `session.active_agent`, `previous_agent`
and `last_activity`) unchanged. -/
theorem unknown_agent_switch_atomic (st : Orch) (name : String)
    (h : Option HandoffData) (now : Nat) (hu : st.getAgent name = none) :
    st.setActiveAgent name h now =
      (some { source_agent := st.context.session.active_agent, target_agent := name,
              message := "Agent \x27" ++ name ++ "\x27 not found" },
       st, []) := by
  simp [Orch.setActiveAgent, hu]

theorem unknown_agent_switch_atomic_witness :
    ({ agents := [{ name := "router" }] } : Orch).setActiveAgent "ghost" none 7 =
      (some { source_agent := "router", target_agent := "ghost",
              message := "Agent \x27ghost\x27 not found" },
       { agents := [{ name := "router" }] }, []) :=
  unknown_agent_switch_atomic { agents := [{ name := "router" }] } "ghost" none 7
    (by decide)

/-- C10: `register_agent` fails exactly when the name is already registered;
on success the agent is retrievable through `get_agent`, and
`available_agents` gains the name only when it was absent, so registration
never introduces a duplicate name there. -/
theorem register_agent_uniqueness (st : Orch) (a : Agent) :
    ((∃ e, st.registerAgent a = .error e) ↔ (st.getAgent a.name).isSome = true) ∧
    (∀ st', st.registerAgent a = .ok st' →
      st'.getAgent a.name = some a ∧
      (a.name ∈ st.context.available_agents →
        st'.context.available_agents = st.context.available_agents) ∧
      (a.name ∉ st.context.available_agents →
        st'.context.available_agents = st.context.available_agents ++ [a.name]) ∧
      (st.context.available_agents.Nodup → st'.context.available_agents.Nodup)) := by
  constructor
  · constructor
    · rintro ⟨e, he⟩
      by_contra hs
      rw [Orch.registerAgent, if_neg hs] at he
      exact Except.noConfusion he
    · intro hs
      exact ⟨_, by rw [Orch.registerAgent, if_pos hs]⟩
  · intro st' hok
    have hs : ¬ (st.getAgent a.name).isSome = true := by
      intro hsome
      rw [Orch.registerAgent, if_pos hsome] at hok
      exact Except.noConfusion hok
    rw [Orch.registerAgent, if_neg hs] at hok
    have hst' := (Except.ok.injEq _ _).mp hok.symm
    subst hst'
    refine ⟨?_, ?_, ?_, ?_⟩
    · show (st.agents ++ [a]).find? (·.name == a.name) = some a
      have hnone : st.agents.find? (·.name == a.name) = none := by
        cases hfind : st.agents.find? (·.name == a.name) with
        | none => rfl
        | some x => exact absurd (by rw [Orch.getAgent, hfind]; rfl) hs
      exact find?_append_singleton _ _ _
        (fun y hy => by
          have := List.find?_eq_none.mp hnone y hy
          simpa using this)
        (by simp)
    · intro hmem; simp [hmem]
    · intro hmem; simp [hmem]
    · intro hnd
      by_cases hmem : a.name ∈ st.context.available_agents
      · simpa [hmem] using hnd
      · simp only [hmem, if_false]
        exact List.nodup_append.mpr ⟨hnd, List.nodup_singleton _, by simpa using hmem⟩

theorem register_agent_uniqueness_witness :
    ∃ st', ({} : Orch).registerAgent { name := "router" } = .ok st' ∧
      st'.getAgent "router" = some { name := "router" } := by
  cases hok : ({} : Orch).registerAgent { name := "router" } with
  | error e =>
    exact absurd ((register_agent_uniqueness {} { name := "router" }).1.mp ⟨e, hok⟩)
      (by decide)
  | ok st' =>
    exact ⟨st', rfl, ((register_agent_uniqueness {} { name := "router" }).2 st' hok).1⟩

/-- C5: `update_status` raises an argument error exactly when the status lies
outside `{OPEN, IN_PROGRESS, COMPLETED, CANCELLED}` (and `update` applies the
same validation when a `status` field is supplied); for a valid status no
error is raised and the persisted task's status equals the supplied one. -/
theorem update_status_domain (db : TaskDB) (id : Nat) (status : String)
    (f : TaskFields) :
    ((∃ e, db.updateStatus id status = .error e) ↔ status ∉ validStatuses) ∧
    (status ∈ validStatuses →
      ∃ r db', db.updateStatus id status = .ok (r, db') ∧
        ∀ t, db'.getById id = some t → t.status = status) ∧
    (f.status = some status →
      ((∃ e, db.update id f = .error e) ↔ status ∉ validStatuses)) ∧
    (f.status = some status → status ∈ validStatuses →
      ∃ r db', db.update id f = .ok (r, db') ∧
        ∀ t, db'.getById id = some t → t.status = status) := by
  refine ⟨⟨?_, ?_⟩, ?_, ?_, ?_⟩
  · rintro ⟨e, he⟩ hmem
    rw [TaskDB.updateStatus, if_neg (by simpa using hmem)] at he
    exact Except.noConfusion he
  · intro hnot
    exact ⟨_, by rw [TaskDB.updateStatus, if_pos hnot]⟩
  · intro hmem
    refine ⟨_, _, by rw [TaskDB.updateStatus, if_neg (by simpa using hmem)], ?_⟩
    intro t ht
    exact status_after_map_write db.tasks id _ status (fun _ => rfl) t ht
  · intro hf
    constructor
    · rintro ⟨e, he⟩ hmem
      simp only [TaskDB.update, hf] at he
      rw [if_neg (by simpa using hmem)] at he
      exact Except.noConfusion he
    · intro hnot
      exact ⟨_, by simp only [TaskDB.update, hf]; rw [if_pos hnot]⟩
  · intro hf hmem
    refine ⟨({ db with tasks := db.tasks.map fun t =>
        if t.task_id == id then applyTaskFields f t else t } : TaskDB).getById id,
      { db with tasks := db.tasks.map fun t =>
        if t.task_id == id then applyTaskFields f t else t }, ?_, ?_⟩
    · simp only [TaskDB.update, hf]
      rw [if_neg (by simpa using hmem)]
    · intro t ht
      refine status_after_map_write db.tasks id _ status ?_ t ht
      intro x
      simp [applyTaskFields, hf]

theorem update_status_domain_witness :
    ("COMPLETED" : String) ∈ validStatuses ∧
    ∃ r db', (TaskDB.updateStatus
        { nextId := 1,
          tasks := [{ task_id := 0, user_id := "u", description := "call mum",
                      priority := 2, status := "OPEN" }] } 0 "COMPLETED")
      = .ok (r, db') ∧ ∀ t, db'.getById 0 = some t → t.status = "COMPLETED" := by
  refine ⟨by decide, ?_⟩
  exact (update_status_domain
    { nextId := 1,
      tasks := [{ task_id := 0, user_id := "u", description := "call mum",
                  priority := 2, status := "OPEN" }] } 0 "COMPLETED" {}).2.1 (by decide)

/-- C4: creating a task and reading it back by id yields the same
description, the clamped priority `max 1 (min 5 p)` and status `OPEN`; the
created row's priority lies in `[1, 5]`, and both `create` and `update`
preserve the all-priorities-in-`[1, 5]` invariant of the store. -/
theorem create_get_roundtrip (db : TaskDB) (hwf : wfTaskDB db)
    (uid d : String) (p : Int) (due : Option Nat) :
    (db.create uid d p due).2.getById (db.create uid d p due).1.task_id
        = some (db.create uid d p due).1 ∧
    (db.create uid d p due).1.description = d ∧
    (db.create uid d p due).1.priority = max 1 (min 5 p) ∧
    (db.create uid d p due).1.status = "OPEN" ∧
    1 ≤ (db.create uid d p due).1.priority ∧ (db.create uid d p due).1.priority ≤ 5 ∧
    wfTaskDB (db.create uid d p due).2 ∧
    ((∀ x ∈ db.tasks, 1 ≤ x.priority ∧ x.priority ≤ 5) →
      ∀ x ∈ (db.create uid d p due).2.tasks, 1 ≤ x.priority ∧ x.priority ≤ 5) ∧
    (∀ (db0 : TaskDB) (id : Nat) (f : TaskFields) (r : Option TaskRow) (db2 : TaskDB),
      db0.update id f = .ok (r, db2) →
      (∀ x ∈ db0.tasks, 1 ≤ x.priority ∧ x.priority ≤ 5) →
      ∀ x ∈ db2.tasks, 1 ≤ x.priority ∧ x.priority ≤ 5) := by
  have hclamp : (1 : Int) ≤ max 1 (min 5 p) ∧ max 1 (min 5 p) ≤ 5 :=
    ⟨le_max_left _ _, max_le (by norm_num) (min_le_left _ _)⟩
  refine ⟨?_, rfl, rfl, rfl, hclamp.1, hclamp.2, ?_, ?_, ?_⟩
  · show TaskDB.getById _ _ = _
    simp only [TaskDB.create, TaskDB.getById]
    refine find?_append_singleton _ _ _ ?_ (by simp)
    intro y hy
    have := hwf y hy
    simp [Nat.ne_of_lt this]
  · intro t ht
    simp only [TaskDB.create] at ht ⊢
    rcases List.mem_append.mp ht with hl | hr
    · exact Nat.lt_succ_of_lt (hwf t hl)
    · simp at hr
      subst hr
      exact Nat.lt_succ_self _
  · intro hall x hx
    simp only [TaskDB.create] at hx
    rcases List.mem_append.mp hx with hl | hr
    · exact hall x hl
    · simp at hr
      subst hr
      exact hclamp
  · intro db0 id f r db2 hok hall x hx
    have hdb2 : db2.tasks = db0.tasks.map
        fun t => if t.task_id == id then applyTaskFields f t else t := by
      cases hf : f.status with
      | none =>
        simp only [TaskDB.update, hf] at hok
        injection hok with hpair
        injection hpair with h1 h2
        rw [← h2]
      | some s =>
        simp only [TaskDB.update, hf] at hok
        by_cases hm : s ∈ validStatuses
        · rw [if_neg (by simpa using hm)] at hok
          injection hok with hpair
          injection hpair with h1 h2
          rw [← h2]
        · rw [if_pos (by simpa using hm)] at hok
          exact Except.noConfusion hok
    rw [hdb2] at hx
    rw [List.mem_map] at hx
    obtain ⟨y, hy, hxy⟩ := hx
    by_cases hid : (y.task_id == id) = true
    · rw [if_pos hid] at hxy
      subst hxy
      cases hp : f.priority with
      | none => simpa [applyTaskFields, hp] using hall y hy
      | some q =>
        simp only [applyTaskFields, hp, Option.map_some, Option.getD_some]
        exact ⟨le_max_left _ _, max_le (by norm_num) (min_le_left _ _)⟩
    · rw [if_neg hid] at hxy
      subst hxy
      exact hall y hy

theorem create_get_roundtrip_witness :
    wfTaskDB ({} : TaskDB) ∧
    ((({} : TaskDB).create "u1" "buy milk" 9 none).2.getById
        (({} : TaskDB).create "u1" "buy milk" 9 none).1.task_id
      = some (({} : TaskDB).create "u1" "buy milk" 9 none).1) ∧
    (({} : TaskDB).create "u1" "buy milk" 9 none).1.priority = 5 := by
  have hwf : wfTaskDB ({} : TaskDB) := by intro t ht; simp [TaskDB.create] at ht
  have h := create_get_roundtrip {} hwf "u1" "buy milk" 9 none
  exact ⟨hwf, h.1, by rw [h.2.2.1]; decide⟩

theorem addTurn_greeting (s : Session) (r c : String) (a : Option String) (n : Nat) :
    (s.addTurn r c a n).greeting_completed = s.greeting_completed := rfl

theorem switchAgent_greeting (s : Session) (na : String) (n : Nat) :
    (s.switchAgent na n).greeting_completed = s.greeting_completed := rfl

theorem prepareHandoff_greeting (s : Session) (t : String) (r i : Option String) :
    (s.prepareHandoff t r i).2.greeting_completed = s.greeting_completed := rfl

theorem setActiveAgent_session_greeting (st : Orch) (name : String)
    (h : Option HandoffData) (now : Nat) :
    ((st.setActiveAgent name h now).2.1).context.session.greeting_completed
      = st.context.session.greeting_completed := by
  cases hr : (st.getAgent name).isSome with
  | false => simp [Orch.setActiveAgent, hr]
  | true => simp [Orch.setActiveAgent, hr, Session.switchAgent]

theorem authGate_ok_greeting (st : Orch) (a : String) (now : Nat) (st' : Orch)
    (evs : List Ev) (hok : st.authGate a now = .ok (st', evs)) :
    st'.context.session.greeting_completed
      = st.context.session.greeting_completed := by
  simp only [Orch.authGate, Session.prepareHandoff] at hok
  split at hok
  · injection hok with hpair
    injection hpair with h1 h2
    rw [← h1]
  · split at hok
    · injection hok with hpair
      injection hpair with h1 h2
      rw [← h1]
    · split at hok
      · split at hok
        · exact Except.noConfusion hok
        · injection hok with hpair
          injection hpair with h1 h2
          rw [← h1]
          rename_i st3 evs3 heq
          have hg := congrArg
            (fun x => x.2.1.context.session.greeting_completed) heq
          simp only at hg
          rw [setActiveAgent_session_greeting] at hg
          rw [← hg]
      · injection hok with hpair
        injection hpair with h1 h2
        rw [← h1]

/-- C8: the greeting latch starts `false`; every session operation either
preserves it or (only `mark_greeting_completed`) sets it to `true`, so it is
monotone over any operation sequence; the orchestrator operations modelled
here also never reset it — `_handle_response` only ever latches it. -/
theorem greeting_latch_monotone :
    (({} : Session).greeting_completed = false) ∧
    (∀ (s : Session) (op : SessOp),
      (applySessOp s op).greeting_completed
        = (s.greeting_completed || op.isMarkGreeting)) ∧
    (∀ (ops : List SessOp) (s : Session), s.greeting_completed = true →
      (ops.foldl applySessOp s).greeting_completed = true) ∧
    (∀ (st : Orch) (name : String) (h : Option HandoffData) (now : Nat),
      ((st.setActiveAgent name h now).2.1).context.session.greeting_completed
        = st.context.session.greeting_completed) ∧
    (∀ (st : Orch) (sig : Signal) (now : Nat) (st' : Orch) (evs : List Ev),
      st.processSignalPre sig now = .ok (st', evs) →
      st'.context.session.greeting_completed
        = st.context.session.greeting_completed) ∧
    (∀ (st : Orch) (tc : PyToolCall) (now : Nat) (st' : Orch) (evs : List Ev),
      st.handleTransferAgent tc now = .ok (st', evs) →
      st'.context.session.greeting_completed
        = st.context.session.greeting_completed) ∧
    (∀ (st : Orch) (d : RoutingDecision) (now : Nat),
      ((st.handleRoutingDecision d now).1).context.session.greeting_completed
        = st.context.session.greeting_completed) ∧
    (∀ (st : Orch) (resp : Response) (now : Nat),
      st.context.session.greeting_completed = true →
      (st.handleResponseEmit resp now).context.session.greeting_completed = true) := by
  have hop : ∀ (s : Session) (op : SessOp),
      (applySessOp s op).greeting_completed
        = (s.greeting_completed || op.isMarkGreeting) := by
    intro s op
    cases op <;>
      simp [applySessOp, SessOp.isMarkGreeting, Session.addTurn, Session.switchAgent,
        Session.prepareHandoff, Session.consumeHandoff, Session.markGreetingCompleted,
        Session.scratchSet]
  refine ⟨rfl, hop, ?_, setActiveAgent_session_greeting, ?_, ?_, ?_, ?_⟩
  · intro ops
    induction ops with
    | nil => intro s hs; exact hs
    | cons op t ih =>
      intro s hs
      rw [List.foldl_cons]
      apply ih
      rw [hop s op, hs, Bool.true_or]
  · intro st sig now st' evs hok
    cases hact : st.active_agent with
    | none =>
      simp only [Orch.processSignalPre, hact] at hok
      exact Except.noConfusion hok
    | some a =>
      simp only [Orch.processSignalPre, hact] at hok
      rw [authGate_ok_greeting _ a now _ _ hok]
      cases sig <;> rfl
  · intro st tc now st' evs hok
    simp only [Orch.handleTransferAgent] at hok
    split at hok
    · exact Except.noConfusion hok
    · injection hok with hpair
      injection hpair with h1 h2
      rw [← h1]
      rename_i st3 evs3 heq
      have hg := congrArg (fun x => x.2.1.context.session.greeting_completed) heq
      simp only at hg
      rw [setActiveAgent_session_greeting] at hg
      rw [← hg]
      cases hauth : st.context.isAuthenticated <;>
        simp [Orch.withTransferSession, hauth, Session.prepareHandoff]
  · intro st d now
    simp only [Orch.handleRoutingDecision]
    split
    · split
      · rename_i st3 evs3 heq
        have hg := congrArg (fun x => x.2.1.context.session.greeting_completed) heq
        simp only at hg
        rw [setActiveAgent_session_greeting] at hg
        rw [← hg]
        cases hauth : st.context.isAuthenticated <;>
          simp [Orch.withRoutingSession, hauth, Session.prepareHandoff]
      · rename_i st3 evs3 heq
        have hg := congrArg (fun x => x.2.1.context.session.greeting_completed) heq
        simp only at hg
        rw [setActiveAgent_session_greeting] at hg
        rw [← hg]
        cases hauth : st.context.isAuthenticated <;>
          simp [Orch.withRoutingSession, hauth, Session.prepareHandoff]
    · rfl
  · intro st resp now hg
    simp only [Orch.handleResponseEmit]
    split
    · simp [Session.addTurn, Session.markGreetingCompleted, hg]
    · exact hg

theorem greeting_latch_monotone_witness :
    ((([SessOp.markGreetingCompleted, SessOp.switchAgent "identity" 3] :
        List SessOp).foldl applySessOp {}).greeting_completed = true) ∧
    (({} : Session).markGreetingCompleted.greeting_completed = true) := by
  constructor
  · exact greeting_latch_monotone.2.2.1 [SessOp.switchAgent "identity" 3]
      (applySessOp {} SessOp.markGreetingCompleted) rfl
  · rfl

/-- C6: with sentiment analysis disabled (the default), a signal carrying
text raises a `HOTWORD` intervention iff the text contains one of the default
hotwords case-insensitively; the intervention's target is the one
`_get_target_for_hotword` assigns to the matched hotword —
`human_intervention` for operator/help/emergency and `router` for
stop/cancel/nevermind/never mind. -/
theorem hotword_detection (sig : Signal) (t : String)
    (ht : observerText sig = some t) :
    ((analyzeSignal {} sig).isSome = true ↔
      ∃ w ∈ defaultHotwords, strContains (pyLower t) (pyLower w) = true) ∧
    (∀ iv, analyzeSignal {} sig = some iv →
      iv.intervention_type = "HOTWORD" ∧
      ∃ w, ({} : HotwordConfig).matches t = some w ∧ w ∈ defaultHotwords ∧
        iv.target_agent = getTargetForHotword w) ∧
    getTargetForHotword "operator" = some "human_intervention" ∧
    getTargetForHotword "help" = some "human_intervention" ∧
    getTargetForHotword "emergency" = some "human_intervention" ∧
    getTargetForHotword "stop" = some "router" ∧
    getTargetForHotword "cancel" = some "router" ∧
    getTargetForHotword "nevermind" = some "router" ∧
    getTargetForHotword "never mind" = some "router" := by
  have hmatch : ({} : HotwordConfig).matches t
      = defaultHotwords.find? fun w => strContains (pyLower t) (pyLower w) := by
    simp [HotwordConfig.matches]
  refine ⟨?_, ?_, by decide, by decide, by decide, by decide, by decide, by decide,
    by decide⟩
  · simp only [analyzeSignal, ht]
    by_cases h0 : t = ""
    · subst h0
      simp only [if_pos rfl]
      constructor
      · intro hfalse; exact absurd hfalse (by decide)
      · rintro ⟨w, hw, hc⟩
        revert hc
        fin_cases hw <;> decide
    · rw [if_neg h0]
      rw [hmatch]
      cases hfind : defaultHotwords.find? fun w => strContains (pyLower t) (pyLower w) with
      | some w =>
        simp only [Option.isSome_some, true_iff]
        have hpw := List.find?_some hfind
        exact ⟨w, List.mem_of_find?_eq_some hfind, hpw⟩
      | none =>
        constructor
        · intro hsome
          simp at hsome
        · rintro ⟨w, hw, hc⟩
          exact absurd hc (by simpa using List.find?_eq_none.mp hfind w hw)
  · intro iv hiv
    simp only [analyzeSignal, ht] at hiv
    by_cases h0 : t = ""
    · rw [if_pos h0] at hiv
      exact Option.noConfusion hiv
    · rw [if_neg h0] at hiv
      rw [hmatch] at hiv ⊢
      cases hfind : defaultHotwords.find? fun w => strContains (pyLower t) (pyLower w) with
      | some w =>
        rw [hfind] at hiv
        simp only [Option.some.injEq] at hiv
        subst hiv
        exact ⟨rfl, w, rfl, List.mem_of_find?_eq_some hfind, rfl⟩
      | none =>
        rw [hfind] at hiv
        simp at hiv

theorem hotword_detection_witness :
    (analyzeSignal {} (Signal.text "s1" "please STOP now")).isSome = true ∧
    getTargetForHotword "operator" = some "human_intervention" := by
  have h := hotword_detection (Signal.text "s1" "please STOP now")
    "please STOP now" rfl
  exact ⟨h.1.mpr ⟨"stop", by decide, by decide⟩, h.2.2.1⟩

theorem getAgent_isSome_of_mem (st : Orch) (n : String)
    (h : n ∈ st.registeredNames) : (st.getAgent n).isSome = true := by
  rw [Orch.registeredNames, List.mem_map] at h
  obtain ⟨a, hmem, hname⟩ := h
  rw [Orch.getAgent]
  exact List.find?_isSome.mpr ⟨a, hmem, by simp [hname]⟩


theorem authGate_switch (st1 : Orch) (a b : String) (now : Nat)
    (hauth : st1.context.isAuthenticated = false)
    (hid : a ≠ "identity") (hreg : "identity" ∈ st1.registeredNames)
    (hact : st1.active_agent = some b) :
    st1.authGate a now = .ok (
      { st1 with
          context := { st1.context with
            session := ((st1.context.session.prepareHandoff "identity"
              (some "Authentication required") none).2).switchAgent "identity" now },
          active_agent := some "identity" },
      [Ev.prepare st1.gateHandoff, Ev.onExit b,
       Ev.onEnter "identity" (some st1.gateHandoff)]) := by
  have hg : (st1.agents.find? (fun x => x.name == "identity")).isSome = true :=
    getAgent_isSome_of_mem st1 _ hreg
  rw [Orch.authGate, if_neg (by simp [hauth]), if_neg hid, if_pos hreg]
  simp only [Session.prepareHandoff, Orch.setActiveAgent, Orch.getAgent, Orch.gateHandoff]
  simp [hg, hact]

/-- C1: while unauthenticated, `_process_signal` either already has the
`identity` agent active (then the gate leaves the agent untouched and fires no
hook) or — when an `identity` agent is registered — prepares an
authentication handoff and switches the active agent to `identity` before the
agent processes the signal; and the router's `process_signal` on an
unauthenticated context always returns a routing response whose `route_to` is
`identity`. -/
theorem authentication_gate (st : Orch) (sig : Signal) (now : Nat) (a : String)
    (ha : st.active_agent = some a)
    (hauth : st.context.isAuthenticated = false) :
    (a = "identity" →
      st.processSignalPre sig now
        = .ok ((st.withTime now).recordUserTurn sig now, [])) ∧
    (a ≠ "identity" → "identity" ∈ st.registeredNames →
      ∃ st', st.processSignalPre sig now
          = .ok (st',
              [Ev.prepare ((st.withTime now).recordUserTurn sig now).gateHandoff,
               Ev.onExit a,
               Ev.onEnter "identity"
                 (some ((st.withTime now).recordUserTurn sig now).gateHandoff)]) ∧
        st'.active_agent = some "identity" ∧
        st'.context.session.handoff_data
          = some ((st.withTime now).recordUserTurn sig now).gateHandoff ∧
        (((st.withTime now).recordUserTurn sig now).gateHandoff).target_agent
          = "identity" ∧
        (((st.withTime now).recordUserTurn sig now).gateHandoff).reason
          = some "Authentication required") ∧
    (∀ (outcome : Option LLMResult) (sig2 : Signal),
      (routerProcessSignal outcome sig2 false).response_type = RespType.routing ∧
      ((routerProcessSignal outcome sig2 false).routing_decision).map
        (fun d => d.route_to) = some "identity") := by
  have hauth1 : ((st.withTime now).recordUserTurn sig now).context.isAuthenticated
      = false := by cases sig <;> exact hauth
  have hact1 : ((st.withTime now).recordUserTurn sig now).active_agent = some a := by
    cases sig <;> exact ha
  have hpre : st.processSignalPre sig now
      = ((st.withTime now).recordUserTurn sig now).authGate a now := by
    simp only [Orch.processSignalPre, ha]
  refine ⟨?_, ?_, ?_⟩
  · intro hid
    subst hid
    rw [hpre, Orch.authGate, if_neg (by simp [hauth1]), if_pos rfl]
  · intro hid hreg
    have hreg1 : "identity" ∈ ((st.withTime now).recordUserTurn sig now).registeredNames := by
      cases sig <;> exact hreg
    have hsw := authGate_switch ((st.withTime now).recordUserTurn sig now) a a now
      hauth1 hid hreg1 hact1
    exact ⟨_, hpre.trans hsw, rfl, rfl, rfl, rfl⟩
  · intro outcome sig2
    exact ⟨rfl, rfl⟩

theorem authentication_gate_witness :
    ∃ st' evs, ({ agents := [{ name := "router" }, { name := "identity" }],
                  active_agent := some "router" } : Orch).processSignalPre
        (Signal.text "s1" "hello") 5 = .ok (st', evs) ∧
      st'.active_agent = some "identity" := by
  have h := (authentication_gate
    { agents := [{ name := "router" }, { name := "identity" }],
      active_agent := some "router" } (Signal.text "s1" "hello") 5 "router"
    rfl rfl).2.1 (by decide) (by decide)
  obtain ⟨st', heq, hact, _⟩ := h
  exact ⟨st', _, heq, hact⟩

theorem setActiveAgent_ok_shape (st : Orch) (name : String) (hff : Option HandoffData)
    (now : Nat) (hreg : (st.getAgent name).isSome = true) :
    ∃ exitEvs, st.setActiveAgent name hff now
      = (none,
         { st with
             context := { st.context with
                            session := st.context.session.switchAgent name now },
             active_agent := some name },
         exitEvs ++ [Ev.onEnter name hff]) ∧
      ∀ e ∈ exitEvs, ∃ b, e = Ev.onExit b := by
  cases hact : st.active_agent with
  | none =>
    refine ⟨[], ?_, by simp⟩
    rw [Orch.setActiveAgent, if_pos hreg]
    simp [hact]
  | some b =>
    refine ⟨[Ev.onExit b], ?_, by simp⟩
    rw [Orch.setActiveAgent, if_pos hreg]
    simp [hact]

/-- C9: `consume_handoff` returns the stored handoff and clears the slot (so
an immediate second consume returns `None`); `prepare_handoff` stores what it
returns; and each orchestrator operation that prepares a handoff
(`_handle_transfer_agent`, `_handle_routing_decision`) emits exactly one
`prepare` followed — after only `on_exit` hooks — by exactly one consumption,
the handoff being passed to the next agent's `on_enter`, before any further
`prepare` can occur. -/
theorem handoff_single_consumption :
    (∀ s : Session, (s.consumeHandoff).1 = s.handoff_data ∧
      (s.consumeHandoff).2.handoff_data = none ∧
      ((s.consumeHandoff).2.consumeHandoff).1 = none) ∧
    (∀ (s : Session) (target : String) (reason intent : Option String),
      ((s.prepareHandoff target reason intent).2).handoff_data
        = some (s.prepareHandoff target reason intent).1) ∧
    (∀ (st : Orch) (tc : PyToolCall) (now : Nat),
      (st.getAgent "task_manager").isSome = true →
      ∃ st' exitEvs, st.handleTransferAgent tc now
          = .ok (st', Ev.prepare (st.transferHandoff tc) ::
              (exitEvs ++ [Ev.onEnter (st.transferTarget tc)
                (some (st.transferHandoff tc))])) ∧
        ∀ e ∈ exitEvs, ∃ b, e = Ev.onExit b) ∧
    (∀ (st : Orch) (d : RoutingDecision) (now : Nat),
      ((st.getAgent d.route_to).isSome = true →
        ∃ st' exitEvs, st.handleRoutingDecision d now
            = (st', Ev.prepare (st.routingHandoff d) ::
                (exitEvs ++ [Ev.onEnter d.route_to (some (st.routingHandoff d))])) ∧
          ∀ e ∈ exitEvs, ∃ b, e = Ev.onExit b) ∧
      ((st.getAgent d.route_to).isSome = false →
        st.handleRoutingDecision d now = (st, []))) := by
  refine ⟨fun s => ⟨rfl, rfl, rfl⟩, fun s t r i => rfl, ?_, ?_⟩
  · intro st tc now htm
    have hreg : ((st.withTransferSession tc).getAgent (st.transferTarget tc)).isSome
        = true := by
      show (st.getAgent (st.transferTarget tc)).isSome = true
      simp only [Orch.transferTarget]
      by_cases h1 : (st.getAgent
          (argGetD tc.arguments "target_agent_name" "task_manager")).isSome = true
      · rw [if_pos h1]; exact h1
      · rw [if_neg h1]; exact htm
    obtain ⟨exy, hset, hex⟩ := setActiveAgent_ok_shape (st.withTransferSession tc)
      (st.transferTarget tc) (some (st.transferHandoff tc)) now hreg
    have heq : st.handleTransferAgent tc now
        = .ok (((st.withTransferSession tc).setActiveAgent (st.transferTarget tc)
              (some (st.transferHandoff tc)) now).2.1,
            Ev.prepare (st.transferHandoff tc) ::
              (exy ++ [Ev.onEnter (st.transferTarget tc)
                (some (st.transferHandoff tc))])) := by
      simp only [Orch.handleTransferAgent]
      rw [hset]
    exact ⟨_, exy, heq, hex⟩
  · intro st d now
    constructor
    · intro hreg0
      have hreg : ((st.withRoutingSession d).getAgent d.route_to).isSome = true := hreg0
      obtain ⟨exy, hset, hex⟩ := setActiveAgent_ok_shape (st.withRoutingSession d)
        d.route_to (some (st.routingHandoff d)) now hreg
      have heq : st.handleRoutingDecision d now
          = (((st.withRoutingSession d).setActiveAgent d.route_to
                (some (st.routingHandoff d)) now).2.1,
              Ev.prepare (st.routingHandoff d) ::
                (exy ++ [Ev.onEnter d.route_to (some (st.routingHandoff d))])) := by
        simp only [Orch.handleRoutingDecision]
        rw [if_pos hreg0, hset]
      exact ⟨_, exy, heq, hex⟩
    · intro hneg
      simp only [Orch.handleRoutingDecision]
      rw [if_neg (by simp [hneg])]

theorem handoff_single_consumption_witness :
    ∃ st' exitEvs,
      Orch.handleTransferAgent { agents := [{ name := "task_manager" }] }
          { tool_name := "transfer_agent",
            arguments := [("target_agent_name", "task_manager")] } 4
        = .ok (st',
            Ev.prepare (Orch.transferHandoff { agents := [{ name := "task_manager" }] }
                { tool_name := "transfer_agent",
                  arguments := [("target_agent_name", "task_manager")] }) ::
              (exitEvs ++
                [Ev.onEnter
                  (Orch.transferTarget { agents := [{ name := "task_manager" }] }
                    { tool_name := "transfer_agent",
                      arguments := [("target_agent_name", "task_manager")] })
                  (some (Orch.transferHandoff { agents := [{ name := "task_manager" }] }
                    { tool_name := "transfer_agent",
                      arguments := [("target_agent_name", "task_manager")] }))])) ∧
      ∀ e ∈ exitEvs, ∃ b, e = Ev.onExit b :=
  handoff_single_consumption.2.2.1 _ _ 4 (by decide)

/-- C3 (amended): in the router's LLM fallback, a `transfer_agent` tool call
routes to its `target_agent_name` when that name is in `VALID_TARGETS`
(`identity`, `task_manager` — or `router`, which the code also accepts), and
to `task_manager` for every target outside that list; free text routes to
`identity` iff its lowercase form contains `identity` or `auth`, else to
`task_manager`. -/
theorem llm_fallback_routing (r : LLMResult) (sig : Signal) :
    (∀ tc, r.tool_calls.find? (·.tool_name == "transfer_agent") = some tc →
      ∃ d, (llmRoute (some r) sig).routing_decision = some d ∧
        (argGetD tc.arguments "target_agent_name" "task_manager" ∈ VALID_TARGETS →
          d.route_to = argGetD tc.arguments "target_agent_name" "task_manager") ∧
        (argGetD tc.arguments "target_agent_name" "task_manager" ∉ VALID_TARGETS →
          d.route_to = "task_manager")) ∧
    (r.tool_calls.find? (·.tool_name == "transfer_agent") = none →
      ∀ t, r.text = some t →
        ∃ d, (llmRoute (some r) sig).routing_decision = some d ∧
          d.route_to = (if strContains (pyLower t) "identity"
              || strContains (pyLower t) "auth" then "identity"
            else "task_manager")) := by
  constructor
  · intro tc hfind
    simp only [llmRoute, hfind]
    by_cases hv : argGetD tc.arguments "target_agent_name" "task_manager" ∈ VALID_TARGETS
    · rw [if_pos hv]
      exact ⟨_, rfl, fun _ => rfl, fun hnot => absurd hv hnot⟩
    · rw [if_neg hv]
      exact ⟨_, rfl, fun hmem => absurd hmem hv, fun _ => rfl⟩
  · intro hnone t ht
    simp only [llmRoute, hnone, ht]
    by_cases h0 : t = ""
    · rw [if_pos h0]
      subst h0
      exact ⟨_, rfl, by decide⟩
    · rw [if_neg h0]
      exact ⟨_, rfl, rfl⟩

/-- C3 counterexample: the claim says every target other than `identity` and
`task_manager` falls back to `task_manager`, but the code's `VALID_TARGETS`
also contains `router`, so a `transfer_agent` call naming `router` routes to
`router`. -/
theorem llm_fallback_routing_counterexample :
    ((llmRoute (some { tool_calls := [routerLoopCall] })
        (Signal.text "s1" "hello")).routing_decision).map (fun d => d.route_to)
      = some "router" ∧
    ("router" : String) ≠ "task_manager" ∧ ("router" : String) ≠ "identity" := by
  exact ⟨rfl, by decide, by decide⟩

theorem llm_fallback_routing_witness :
    ∃ d, (llmRoute (some { tool_calls := [identityCall] })
        (Signal.text "s1" "hi")).routing_decision = some d ∧
      d.route_to = "identity" := by
  obtain ⟨d, hd, hv, _⟩ := (llm_fallback_routing
    { tool_calls := [identityCall] } (Signal.text "s1" "hi")).1
    identityCall (by decide)
  exact ⟨d, hd, hv (by decide)⟩

theorem data_append_cons (p : String) (c : Char) (tl : List Char)
    (hp : p.data = c :: tl) (s : String) :
    (p ++ s).data = c :: (tl ++ s.data) := by
  rw [String.data_append, hp]; rfl

theorem head_ne_of_data {p q : String} {c d : Char} {tp tq : List Char}
    (hp : p.data = c :: tp) (hq : q.data = d :: tq) (hcd : c ≠ d) : p ≠ q := by
  intro h
  rw [h] at hp
  have hcons := hp.symm.trans hq
  exact hcd (List.head_eq_of_cons_eq hcons)

theorem mem_optPart_iff (tag : String) (o : Option String) (x : String) :
    x ∈ optPart tag o ↔ ∃ s, o = some s ∧ s ≠ "" ∧ x = tag ++ s := by
  cases o with
  | none => simp [optPart]
  | some s =>
    by_cases h : s = ""
    · subst h
      simp [optPart]
    · simp [optPart, h]

theorem mem_lastTurnPart_iff (o : Option String) (x : String) :
    x ∈ lastTurnPart o ↔
      ∃ s, o = some s ∧ s ≠ "" ∧ x = "Last User Message: \"" ++ s ++ "\"" := by
  cases o with
  | none => simp [lastTurnPart]
  | some s =>
    by_cases h : s = ""
    · subst h
      simp [lastTurnPart]
    · simp [lastTurnPart, h]

theorem mem_greetPart_iff (b : Bool) (x : String) :
    x ∈ (if b then [greetNote] else []) ↔ (b = true ∧ x = greetNote) := by
  cases b <;> simp

theorem optPart_eq_nil (tag : String) (o : Option String) :
    optPart tag o = [] ↔ truthyOpt o = false := by
  cases o with
  | none => simp [optPart, truthyOpt]
  | some s => by_cases h : s = "" <;> simp [optPart, truthyOpt, h]

theorem lastTurnPart_eq_nil (o : Option String) :
    lastTurnPart o = [] ↔ truthyOpt o = false := by
  cases o with
  | none => simp [lastTurnPart, truthyOpt]
  | some s => by_cases h : s = "" <;> simp [lastTurnPart, truthyOpt, h]

theorem parts_empty_iff (hd : HandoffData) :
    hd.parts = [] ↔
      (truthyOpt hd.user_name = false ∧ truthyOpt hd.user_intent = false ∧
       truthyOpt hd.last_user_turn = false ∧ hd.greeting_completed = false ∧
       truthyOpt hd.reason = false) := by
  simp only [HandoffData.parts, List.append_eq_nil, optPart_eq_nil, lastTurnPart_eq_nil]
  cases hb : hd.greeting_completed
  · simp
    tauto
  · simp

theorem userName_line_iff (hd : HandoffData) (n : String) :
    ("User Name: " ++ n) ∈ hd.parts ↔ (hd.user_name = some n ∧ n ≠ "") := by
  simp only [HandoffData.parts, List.mem_append, mem_optPart_iff, mem_lastTurnPart_iff,
    mem_greetPart_iff]
  constructor
  · rintro ((((⟨s, hs, hne, heq⟩ | ⟨s, hs, hne, heq⟩) | ⟨s, hs, hne, heq⟩) |
      ⟨hb, heq⟩) | ⟨s, hs, hne, heq⟩)
    · have hn := string_append_left_cancel heq
      subst hn
      exact ⟨hs, hne⟩
    · exact absurd heq (head_ne_of_data (data_append_cons _ 'U' _ rfl n)
        (data_append_cons _ 'P' _ rfl s) (by decide))
    · exact absurd heq (head_ne_of_data (data_append_cons _ 'U' _ rfl n)
        (data_append_cons _ 'L' _ (data_append_cons _ 'L' _ rfl s) "\"") (by decide))
    · exact absurd heq (head_ne_of_data (data_append_cons _ 'U' _ rfl n)
        (rfl : greetNote.data = 'N' :: _) (by decide))
    · exact absurd heq (head_ne_of_data (data_append_cons _ 'U' _ rfl n)
        (data_append_cons _ 'H' _ rfl s) (by decide))
  · rintro ⟨hs, hne⟩
    exact Or.inl (Or.inl (Or.inl (Or.inl ⟨n, hs, hne, rfl⟩)))

theorem userIntent_line_iff (hd : HandoffData) (n : String) :
    ("Previous Intent: " ++ n) ∈ hd.parts ↔ (hd.user_intent = some n ∧ n ≠ "") := by
  simp only [HandoffData.parts, List.mem_append, mem_optPart_iff, mem_lastTurnPart_iff,
    mem_greetPart_iff]
  constructor
  · rintro ((((⟨s, hs, hne, heq⟩ | ⟨s, hs, hne, heq⟩) | ⟨s, hs, hne, heq⟩) |
      ⟨hb, heq⟩) | ⟨s, hs, hne, heq⟩)
    · exact absurd heq (head_ne_of_data (data_append_cons _ 'P' _ rfl n)
        (data_append_cons _ 'U' _ rfl s) (by decide))
    · have hn := string_append_left_cancel heq
      subst hn
      exact ⟨hs, hne⟩
    · exact absurd heq (head_ne_of_data (data_append_cons _ 'P' _ rfl n)
        (data_append_cons _ 'L' _ (data_append_cons _ 'L' _ rfl s) "\"") (by decide))
    · exact absurd heq (head_ne_of_data (data_append_cons _ 'P' _ rfl n)
        (rfl : greetNote.data = 'N' :: _) (by decide))
    · exact absurd heq (head_ne_of_data (data_append_cons _ 'P' _ rfl n)
        (data_append_cons _ 'H' _ rfl s) (by decide))
  · rintro ⟨hs, hne⟩
    exact Or.inl (Or.inl (Or.inl (Or.inr ⟨n, hs, hne, rfl⟩)))

theorem lastTurn_line_iff (hd : HandoffData) (n : String) :
    ("Last User Message: \"" ++ n ++ "\"") ∈ hd.parts ↔
      (hd.last_user_turn = some n ∧ n ≠ "") := by
  simp only [HandoffData.parts, List.mem_append, mem_optPart_iff, mem_lastTurnPart_iff,
    mem_greetPart_iff]
  constructor
  · rintro ((((⟨s, hs, hne, heq⟩ | ⟨s, hs, hne, heq⟩) | ⟨s, hs, hne, heq⟩) |
      ⟨hb, heq⟩) | ⟨s, hs, hne, heq⟩)
    · exact absurd heq (head_ne_of_data
        (data_append_cons _ 'L' _ (data_append_cons _ 'L' _ rfl n) "\"")
        (data_append_cons _ 'U' _ rfl s) (by decide))
    · exact absurd heq (head_ne_of_data
        (data_append_cons _ 'L' _ (data_append_cons _ 'L' _ rfl n) "\"")
        (data_append_cons _ 'P' _ rfl s) (by decide))
    · have hn := string_append_both_cancel heq
      subst hn
      exact ⟨hs, hne⟩
    · exact absurd heq (head_ne_of_data
        (data_append_cons _ 'L' _ (data_append_cons _ 'L' _ rfl n) "\"")
        (rfl : greetNote.data = 'N' :: _) (by decide))
    · exact absurd heq (head_ne_of_data
        (data_append_cons _ 'L' _ (data_append_cons _ 'L' _ rfl n) "\"")
        (data_append_cons _ 'H' _ rfl s) (by decide))
  · rintro ⟨hs, hne⟩
    exact Or.inl (Or.inl (Or.inr ⟨n, hs, hne, rfl⟩))

theorem greetNote_line_iff (hd : HandoffData) :
    greetNote ∈ hd.parts ↔ hd.greeting_completed = true := by
  simp only [HandoffData.parts, List.mem_append, mem_optPart_iff, mem_lastTurnPart_iff,
    mem_greetPart_iff]
  constructor
  · rintro ((((⟨s, hs, hne, heq⟩ | ⟨s, hs, hne, heq⟩) | ⟨s, hs, hne, heq⟩) |
      ⟨hb, heq⟩) | ⟨s, hs, hne, heq⟩)
    · exact absurd heq (head_ne_of_data (rfl : greetNote.data = 'N' :: _)
        (data_append_cons _ 'U' _ rfl s) (by decide))
    · exact absurd heq (head_ne_of_data (rfl : greetNote.data = 'N' :: _)
        (data_append_cons _ 'P' _ rfl s) (by decide))
    · exact absurd heq (head_ne_of_data (rfl : greetNote.data = 'N' :: _)
        (data_append_cons _ 'L' _ (data_append_cons _ 'L' _ rfl s) "\"") (by decide))
    · exact hb
    · exact absurd heq (head_ne_of_data (rfl : greetNote.data = 'N' :: _)
        (data_append_cons _ 'H' _ rfl s) (by decide))
  · intro hb
    exact Or.inl (Or.inr ⟨hb, trivial⟩)

theorem reason_line_iff (hd : HandoffData) (n : String) :
    ("Handoff Reason: " ++ n) ∈ hd.parts ↔ (hd.reason = some n ∧ n ≠ "") := by
  simp only [HandoffData.parts, List.mem_append, mem_optPart_iff, mem_lastTurnPart_iff,
    mem_greetPart_iff]
  constructor
  · rintro ((((⟨s, hs, hne, heq⟩ | ⟨s, hs, hne, heq⟩) | ⟨s, hs, hne, heq⟩) |
      ⟨hb, heq⟩) | ⟨s, hs, hne, heq⟩)
    · exact absurd heq (head_ne_of_data (data_append_cons _ 'H' _ rfl n)
        (data_append_cons _ 'U' _ rfl s) (by decide))
    · exact absurd heq (head_ne_of_data (data_append_cons _ 'H' _ rfl n)
        (data_append_cons _ 'P' _ rfl s) (by decide))
    · exact absurd heq (head_ne_of_data (data_append_cons _ 'H' _ rfl n)
        (data_append_cons _ 'L' _ (data_append_cons _ 'L' _ rfl s) "\"") (by decide))
    · exact absurd heq (head_ne_of_data (data_append_cons _ 'H' _ rfl n)
        (rfl : greetNote.data = 'N' :: _) (by decide))
    · have hn := string_append_left_cancel heq
      subst hn
      exact ⟨hs, hne⟩
  · rintro ⟨hs, hne⟩
    exact Or.inr ⟨n, hs, hne, rfl⟩

/-- C2 (amended): `to_context_injection` returns the empty string exactly when
`user_name`, `user_intent`, `last_user_turn` and `reason` are all absent *or
empty* (Python truthiness) and `greeting_completed` is false; otherwise it is
`"[HANDOFF CONTEXT]\n" ++ parts ++ "\n[END CONTEXT]"`, whose parts contain
the line `User Name: <n>` exactly when `user_name` is `some n` with `n`
non-empty (likewise for `Previous Intent`, quoted `Last User Message`, and
`Handoff Reason`), and the re-greeting note exactly when
`greeting_completed`. -/
theorem handoff_injection_format (hd : HandoffData) :
    (hd.toContextInjection = "" ↔
      (truthyOpt hd.user_name = false ∧ truthyOpt hd.user_intent = false ∧
       truthyOpt hd.last_user_turn = false ∧ hd.greeting_completed = false ∧
       truthyOpt hd.reason = false)) ∧
    (hd.parts ≠ [] →
      hd.toContextInjection
        = "[HANDOFF CONTEXT]\n" ++ String.intercalate "\n" hd.parts
            ++ "\n[END CONTEXT]") ∧
    (∀ n, ("User Name: " ++ n) ∈ hd.parts ↔ (hd.user_name = some n ∧ n ≠ "")) ∧
    (∀ n, ("Previous Intent: " ++ n) ∈ hd.parts ↔
      (hd.user_intent = some n ∧ n ≠ "")) ∧
    (∀ n, ("Last User Message: \"" ++ n ++ "\"") ∈ hd.parts ↔
      (hd.last_user_turn = some n ∧ n ≠ "")) ∧
    (greetNote ∈ hd.parts ↔ hd.greeting_completed = true) ∧
    (∀ n, ("Handoff Reason: " ++ n) ∈ hd.parts ↔ (hd.reason = some n ∧ n ≠ "")) := by
  have hstruct : ∀ a t, hd.parts = a :: t →
      hd.toContextInjection
        = "[HANDOFF CONTEXT]\n" ++ String.intercalate "\n" hd.parts
            ++ "\n[END CONTEXT]" := by
    intro a t hp
    simp only [HandoffData.toContextInjection, hp]
    rfl
  refine ⟨?_, ?_, userName_line_iff hd, userIntent_line_iff hd,
    lastTurn_line_iff hd, greetNote_line_iff hd, reason_line_iff hd⟩
  · constructor
    · intro hempty
      rw [← parts_empty_iff]
      cases hp : hd.parts with
      | nil => rfl
      | cons a t =>
        rw [hstruct a t hp] at hempty
        have hlen := congrArg String.length hempty
        rw [String.length_append, String.length_append,
          show ("[HANDOFF CONTEXT]\n").length = 18 from rfl,
          show ("\n[END CONTEXT]").length = 14 from rfl,
          show ("" : String).length = 0 from rfl] at hlen
        omega
    · intro hfields
      have hp : hd.parts = [] := (parts_empty_iff hd).mpr hfields
      simp only [HandoffData.toContextInjection, hp]
      rfl
  · intro hne
    cases hp : hd.parts with
    | nil => exact absurd hp hne
    | cons a t =>
      rw [← hp]
      exact hstruct a t hp

/-- C2 counterexample: `user_name = some ""` is a present field, yet the
injection is the empty string rather than one starting with
`[HANDOFF CONTEXT]`, so absence (`None`) alone does not characterise the
empty injection — Python truthiness also drops present-but-empty fields. -/
theorem handoff_injection_format_counterexample :
    (({ source_agent := "router", target_agent := "identity",
        user_name := some "" } : HandoffData).toContextInjection = "") ∧
    (({ source_agent := "router", target_agent := "identity",
        user_name := some "" } : HandoffData).user_name.isSome = true) := by
  exact ⟨rfl, rfl⟩

theorem handoff_injection_format_witness :
    (("User Name: " ++ "Alice") ∈
      ({ source_agent := "router", target_agent := "task_manager",
         user_name := some "Alice", greeting_completed := true } :
         HandoffData).parts) ∧
    (({ source_agent := "router", target_agent := "task_manager",
        user_name := some "Alice", greeting_completed := true } :
        HandoffData).toContextInjection ≠ "") := by
  have h := handoff_injection_format
    { source_agent := "router", target_agent := "task_manager",
      user_name := some "Alice", greeting_completed := true }
  refine ⟨(h.2.2.1 "Alice").mpr ⟨rfl, by decide⟩, ?_⟩
  intro heq
  exact absurd (h.1.mp heq).2.2.2.1 (by decide)
